import Mathlib

/-!
Shallow embedding of `git-fatfiles` (`src/main.rs`), a tool that sums the
on-disk size of every historical object of a git repository per path (or per
parent directory), and verification of its specification.

The two spawned `git` collaborators are modelled by their observable
interface: an optional pair of an exit code and the list of output lines
(`none` models a failed spawn).  Rust `HashMap`s are modelled by association
lists in insertion order; `HashMap::insert` replaces the value of an existing
key in place.  Rust panics (`expect`, indexing a missing key, a failed
`parse`) are modelled by `Except.error` carrying the panic message.
-/

namespace GitFatfiles

/-- Model of Rust `str::split(sep)` on a character separator: the list of
segments between separator occurrences; adjacent separators and separators at
either end produce empty segments, and the empty input gives one empty
segment, exactly as in Rust. -/
def split_ch (sep : Char) : List Char → List (List Char)
  | [] => [[]]
  | c :: rest =>
    match split_ch sep rest with
    | [] => [[]]
    | hd :: tl => if c = sep then [] :: hd :: tl else (c :: hd) :: tl

/-- The segments of `line.split(' ')`, as strings. -/
def splitSp (s : String) : List String :=
  (split_ch ' ' s.data).map String.mk

/-- Concatenate segments with a separator character between them (used to
rebuild the remainder after the first space, and a parent path). -/
def joinSep (sep : Char) : List (List Char) → List Char
  | [] => []
  | [x] => x
  | x :: y :: tl => x ++ sep :: joinSep sep (y :: tl)

/-- Model of Rust `str::split_once(' ')`: split at the first space, `none`
when the string contains no space. -/
def split_once_ch : List Char → Option (List Char × List Char)
  | [] => none
  | c :: rest =>
    if c = ' ' then some ([], rest)
    else
      match split_once_ch rest with
      | some (l, r) => some (c :: l, r)
      | none => none

/-- String-level wrapper of `split_once_ch`. -/
def split_once (s : String) : Option (String × String) :=
  match split_once_ch s.data with
  | some (l, r) => some (String.mk l, String.mk r)
  | none => none

/-- Association-list lookup: the value of the first entry whose key matches. -/
def lookupH {β : Type} : List (String × β) → String → Option β
  | [], _ => none
  | (k, v) :: m, k2 => if k = k2 then some v else lookupH m k2

/-- Model of `HashMap::insert`: replace the value of an existing key in
place, otherwise append the new entry. -/
def insertH {β : Type} : List (String × β) → String → β → List (String × β)
  | [], k, v => [(k, v)]
  | (k1, v1) :: m, k, v =>
    if k1 = k then (k, v) :: m else (k1, v1) :: insertH m k v

/-- Model of `*map.entry(k).or_default() += v` on a `HashMap<_, u64>`. -/
def addH : List (String × Nat) → String → Nat → List (String × Nat)
  | [], k, v => [(k, v)]
  | (k1, v1) :: m, k, v =>
    if k1 = k then (k1, v1 + v) :: m else (k1, v1) :: addH m k v

/-- One line of `git rev-list --all --objects` output, as processed by the
loop of `get_revs_for_paths`: a line with a space inserts
`(id, path)` into the map, a line without a space is skipped. -/
def rev_step (m : List (String × String)) (line : String) :
    List (String × String) :=
  match split_once line with
  | some (k, v) => insertH m k v
  | none => m

/-- The association map built by `get_revs_for_paths` from the rev-list
output lines. -/
def revs_map (lines : List String) : List (String × String) :=
  lines.foldl rev_step []

/-- Model of `get_revs_for_paths`: `none` (spawn failure) panics; otherwise
the exit code is ignored and the stdout lines are parsed into the map. -/
def get_revs_for_paths : Option (Nat × List String) →
    Except String (List (String × String))
  | none => Except.error "Failed to execute command git rev-list."
  | some (_code, lines) => Except.ok (revs_map lines)

/-- Model of Rust `str::parse::<u64>()`: an optional leading plus sign, then
one or more ASCII digits, value below 2 to the 64th power. -/
def parse_u64_ch (l : List Char) : Option Nat :=
  let t := match l with
    | '+' :: rest => rest
    | _ => l
  if t = [] then none
  else if t.all (fun c => c.isDigit) then
    let n := t.foldl (fun acc c => acc * 10 + (c.toNat - 48)) 0
    if n < 2 ^ 64 then some n else none
  else none

/-- String-level wrapper of `parse_u64_ch`. -/
def parse_u64 (s : String) : Option Nat := parse_u64_ch s.data

/-- One line of `git cat-file --batch-check` output, as processed by the loop
of `get_sizes_of_objects`: exactly three space-separated fields with middle
field `blob` insert the parsed size (an unparsable size panics); every other
line is skipped. -/
def size_step (m : List (String × Nat)) (line : String) :
    Except String (List (String × Nat)) :=
  match splitSp line with
  | [id, ty, size] =>
    if ty = "blob" then
      match parse_u64 size with
      | some n => Except.ok (insertH m id n)
      | none => Except.error "Could not convert size to int."
    else Except.ok m
  | _ => Except.ok m

/-- The response-processing loop of `get_sizes_of_objects`: fold
`size_step` over the lines, a panic aborting the loop. -/
def sizes_fold (m : List (String × Nat)) :
    List String → Except String (List (String × Nat))
  | [] => Except.ok m
  | line :: rest =>
    match size_step m line with
    | Except.ok m2 => sizes_fold m2 rest
    | Except.error e => Except.error e

/-- The size map built by `get_sizes_of_objects` from the cat-file response
lines. -/
def sizes_run (lines : List String) : Except String (List (String × Nat)) :=
  sizes_fold [] lines

/-- Model of `get_sizes_of_objects`: `none` (spawn failure) panics; otherwise
the exit code is ignored (the child is never waited on) and the response
lines are parsed into the size map. -/
def get_sizes_of_objects : Option (Nat × List String) →
    Except String (List (String × Nat))
  | none => Except.error "Failed to execute command git cat-file."
  | some (_code, lines) => sizes_run lines

/-- One iteration of the `paths_to_count` loop in `main`: insert count 1 for
the path; if there was a previous count, re-insert that count plus one. -/
def count_step (m : List (String × Nat)) (p : String) : List (String × Nat) :=
  let previous := lookupH m p
  let m1 := insertH m p 1
  match previous with
  | some count => insertH m1 p (count + 1)
  | none => m1

/-- The `paths_to_count` map of `main`: how many object ids map to each
path. -/
def paths_to_count (revs : List (String × String)) : List (String × Nat) :=
  revs.foldl (fun m kv => count_step m kv.2) []

/-- Model of Rust `Path::parent` on the relative slash-separated paths git
emits (no trailing slash, no empty components): the empty path and the root
have no parent; otherwise the parent is everything before the final slash,
which is the empty string for a single-component path such as `README`. -/
def path_parent (p : String) : Option String :=
  if p = "" ∨ p = "/" then none
  else some (String.mk (joinSep '/' (split_ch '/' p.data).dropLast))

/-- The `file_sizes` join of `main`: each resolved (id, size) pair is turned
into (path, size) via the unguarded index `revs_to_paths[id]`, which panics
when the id is missing from the association map. -/
def join_sizes (revs : List (String × String)) :
    List (String × Nat) → Except String (List (String × Nat))
  | [] => Except.ok []
  | p :: rest =>
    match lookupH revs p.1 with
    | some path =>
      match join_sizes revs rest with
      | Except.ok tl => Except.ok ((path, p.2) :: tl)
      | Except.error e => Except.error e
    | none => Except.error "no entry found for key"

/-- One iteration of the aggregation loop of `main`: in directory mode the
path is replaced by its parent, and a path with no parent is skipped with a
warning on stderr; the size is added to the running total of the key. -/
def agg_step (dirs : Bool) (acc : List (String × Nat) × List String)
    (ps : String × Nat) : List (String × Nat) × List String :=
  if dirs then
    match path_parent ps.1 with
    | some parent => (addH acc.1 parent ps.2, acc.2)
    | none => (acc.1, acc.2 ++ ["File has no parent directory: " ++ ps.1])
  else (addH acc.1 ps.1 ps.2, acc.2)

/-- The `file_size_sums` aggregation of `main`: fold the joined (path, size)
pairs, returning the sums map together with the stderr warnings. -/
def aggregate (dirs : Bool) (file_sizes : List (String × Nat)) :
    List (String × Nat) × List String :=
  file_sizes.foldl (agg_step dirs) ([], [])

/-- Decimal digits of a natural number, most significant first (fuel-based
structural recursion; the fuel in `decDigits` always suffices). -/
def decDigitsAux : Nat → Nat → List Char
  | 0, _ => []
  | fuel + 1, n =>
    if n < 10 then [Nat.digitChar n]
    else decDigitsAux fuel (n / 10) ++ [Nat.digitChar (n % 10)]

/-- Decimal digits of a natural number, most significant first. -/
def decDigits (n : Nat) : List Char := decDigitsAux (n + 1) n

/-- Decimal rendering of a natural number. -/
def decStr (n : Nat) : String := String.mk (decDigits n)

/-- A value scaled by a power-of-two unit, rendered with one decimal
place. -/
def scaled1 (n unit : Nat) : String :=
  decStr (n / unit) ++ "." ++ decStr (n % unit * 10 / unit)

/-- Modelled from the spec: the human-readable byte formatting performed by
the external `bytesize` crate (not part of this repository's sources) —
"standard power-of-two byte-unit abbreviation (e.g., KiB/MiB)", a plain
`B` count for values under 1024. -/
def byte_display (n : Nat) : String :=
  if n < 1024 then decStr n ++ " B"
  else if n < 1024 ^ 2 then scaled1 n 1024 ++ " KiB"
  else if n < 1024 ^ 3 then scaled1 n (1024 ^ 2) ++ " MiB"
  else if n < 1024 ^ 4 then scaled1 n (1024 ^ 3) ++ " GiB"
  else if n < 1024 ^ 5 then scaled1 n (1024 ^ 4) ++ " TiB"
  else if n < 1024 ^ 6 then scaled1 n (1024 ^ 5) ++ " PiB"
  else scaled1 n (1024 ^ 6) ++ " EiB"

/-- Model of the Rust format width 10 applied to the byte display in
`print_sizes` (`Display` padding is left-aligned: fill with spaces on the
right up to ten characters). -/
def pad10 (s : String) : String :=
  s ++ String.mk (List.replicate (10 - s.length) ' ')

/-- One report line of `print_sizes`: the padded byte display followed by the
path. -/
def format_line (p : String × Nat) : String := pad10 (byte_display p.2) ++ p.1

/-- The comparison used by `sizes.sort_by_key(|(_path, size)| *size)`. -/
def size_le (a b : String × Nat) : Prop := a.2 ≤ b.2

instance : DecidableRel size_le :=
  fun a b => inferInstanceAs (Decidable (a.2 ≤ b.2))

instance : IsTotal (String × Nat) size_le :=
  ⟨fun a b => Nat.le_total a.2 b.2⟩

instance : IsTrans (String × Nat) size_le :=
  ⟨fun _ _ _ => Nat.le_trans⟩

/-- The stable ascending sort by size performed by `print_sizes`
(`Vec::sort_by_key` is a stable sort; a stable sort is extensionally the
insertion sort below). -/
def sorted_pairs (sizes : List (String × Nat)) : List (String × Nat) :=
  List.insertionSort size_le sizes

/-- Model of `print_sizes`: the report lines, in ascending size order. -/
def print_sizes (sizes : List (String × Nat)) : List String :=
  (sorted_pairs sizes).map format_line

/-- Model of `println!("\x7b:#?\x7d", paths_to_count)` in `main`: the pretty
`Debug` rendering of the path-count map, one stdout line per list entry. -/
def debug_dump (m : List (String × Nat)) : List String :=
  match m with
  | [] => ["\x7b\x7d"]
  | entries =>
    ["\x7b"] ++
      entries.map (fun e => "    \"" ++ e.1 ++ "\": " ++ decStr e.2 ++ ",") ++
      ["\x7d"]

/-- The external inputs of one run: the directories flag and the observable
behaviour of the two spawned `git` subprocesses. -/
structure RunInput where
  directories : Bool
  revlist : Option (Nat × List String)
  catfile : Option (Nat × List String)

/-- Model of `main`: on success, the stdout lines (the debug dump of the
path-count map followed by the report) and the stderr warning lines; a Rust
panic is an `Except.error` (the process then exits non-zero). -/
def main_run (inp : RunInput) : Except String (List String × List String) := do
  let revs ← get_revs_for_paths inp.revlist
  let dbg := debug_dump (paths_to_count revs)
  let sizes ← get_sizes_of_objects inp.catfile
  let fs ← join_sizes revs sizes
  let agg := aggregate inp.directories fs
  Except.ok (dbg ++ print_sizes agg.1, agg.2)

/-- The aggregated sums map (`file_size_sums`) computed by `main`, before the
hash map is linearized for sorting and printing. -/
def main_sums (inp : RunInput) : Except String (List (String × Nat)) := do
  let revs ← get_revs_for_paths inp.revlist
  let sizes ← get_sizes_of_objects inp.catfile
  let fs ← join_sizes revs sizes
  Except.ok (aggregate inp.directories fs).1

/-- The total recorded for a key in a sums map (zero when absent). -/
def totalOf (m : List (String × Nat)) (k : String) : Nat :=
  (lookupH m k).getD 0

/-- The specification-level reading of last-one-wins: the path of the LAST
line of the rev-list output that parses to an association for the given
identifier. -/
def assoc_last : List String → String → Option String
  | [], _ => none
  | line :: rest, id =>
    match assoc_last rest id with
    | some v => some v
    | none =>
      match split_once line with
      | some (k, v) => if k = id then some v else none
      | none => none

theorem lookupH_insertH {β : Type} (m : List (String × β)) (k : String) (v : β)
    (k2 : String) :
    lookupH (insertH m k v) k2 = if k = k2 then some v else lookupH m k2 := by
  induction m with
  | nil => simp [insertH, lookupH]
  | cons hd tl ih =>
    obtain ⟨k1, v1⟩ := hd
    by_cases h1 : k1 = k
    · subst h1
      simp only [insertH, if_pos rfl, lookupH]
      by_cases h2 : k1 = k2 <;> simp [h2, lookupH]
    · simp only [insertH, if_neg h1, lookupH]
      by_cases h2 : k1 = k2
      · have hk : ¬ k = k2 := fun h => h1 (h2.trans h.symm)
        simp [h2, hk]
      · simp [h2, ih]

theorem totalOf_addH (m : List (String × Nat)) (k : String) (v : Nat)
    (k2 : String) :
    totalOf (addH m k v) k2 = totalOf m k2 + if k = k2 then v else 0 := by
  induction m with
  | nil =>
    simp only [addH, totalOf, lookupH]
    by_cases h2 : k = k2 <;> simp [h2]
  | cons hd tl ih =>
    obtain ⟨k1, v1⟩ := hd
    by_cases h1 : k1 = k
    · subst h1
      simp only [addH, if_pos rfl, totalOf, lookupH]
      by_cases h2 : k1 = k2 <;> simp [h2]
    · simp only [addH, if_neg h1, totalOf, lookupH]
      by_cases h2 : k1 = k2
      · have hk : ¬ k = k2 := fun h => h1 (h2.trans h.symm)
        simp [h2, hk]
      · simpa [h2, totalOf] using ih

theorem lookupH_revs_map (lines : List String) (id : String) :
    lookupH (revs_map lines) id = assoc_last lines id := by
  suffices h : ∀ m : List (String × String),
      lookupH (lines.foldl rev_step m) id =
        match assoc_last lines id with
        | some v => some v
        | none => lookupH m id by
    have h0 := h []
    unfold revs_map
    rw [h0]
    cases assoc_last lines id <;> simp [lookupH]
  induction lines with
  | nil => intro m; simp [assoc_last]
  | cons line rest ih =>
    intro m
    simp only [List.foldl_cons]
    rw [ih (rev_step m line)]
    simp only [assoc_last]
    cases hrest : assoc_last rest id with
    | some v => simp
    | none =>
      simp only [rev_step]
      cases hline : split_once line with
      | none => simp
      | some kv =>
        obtain ⟨k, v⟩ := kv
        simp only [lookupH_insertH]
        by_cases hk : k = id <;> simp [hk]

theorem aggregate_false_total_aux (fs : List (String × Nat)) (k : String) :
    ∀ acc : List (String × Nat) × List String,
      totalOf (fs.foldl (agg_step false) acc).1 k =
        totalOf acc.1 k + ((fs.filter (fun p => p.1 == k)).map Prod.snd).sum := by
  induction fs with
  | nil => intro acc; simp
  | cons hd tl ih =>
    intro acc
    simp only [List.foldl_cons, List.filter_cons]
    rw [ih]
    simp only [agg_step, Bool.false_eq_true, if_false, totalOf_addH]
    by_cases hk : hd.1 = k
    · simp [hk]; omega
    · have : (hd.1 == k) = false := beq_false_of_ne hk
      simp [hk, this]

theorem aggregate_false_total (fs : List (String × Nat)) (k : String) :
    totalOf (aggregate false fs).1 k =
      ((fs.filter (fun p => p.1 == k)).map Prod.snd).sum := by
  have h := aggregate_false_total_aux fs k ([], [])
  simpa [aggregate, totalOf, lookupH] using h

theorem lookupH_isSome_mem {β : Type} (m : List (String × β)) (p : String × β)
    (hp : p ∈ m) : (lookupH m p.1).isSome := by
  induction m with
  | nil => simp at hp
  | cons hd tl ih =>
    obtain ⟨k1, v1⟩ := hd
    rcases List.mem_cons.mp hp with h | h
    · rw [h]; simp [lookupH]
    · by_cases hk : k1 = p.1 <;> simp [lookupH, hk, ih h]

theorem size_step_keys (acc : List (String × Nat)) (line : String)
    (acc2 : List (String × Nat)) (k : String)
    (hstep : size_step acc line = Except.ok acc2)
    (hk : (lookupH acc2 k).isSome) :
    (lookupH acc k).isSome ∨ ∃ sz, splitSp line = [k, "blob", sz] := by
  unfold size_step at hstep
  split at hstep
  · next id ty sz heq =>
      by_cases hb : ty = "blob"
      · rw [if_pos hb] at hstep
        cases hpn : parse_u64 sz with
        | none => rw [hpn] at hstep; cases hstep
        | some n =>
          rw [hpn] at hstep
          cases hstep
          rw [lookupH_insertH] at hk
          by_cases hak : id = k
          · right; exact ⟨sz, by rw [heq, hak, hb]⟩
          · left; rwa [if_neg hak] at hk
      · rw [if_neg hb] at hstep; cases hstep; exact Or.inl hk
  · next => cases hstep; exact Or.inl hk

theorem sizes_fold_keys (lines : List String) :
    ∀ acc m : List (String × Nat), sizes_fold acc lines = Except.ok m →
      ∀ k, (lookupH m k).isSome →
        (lookupH acc k).isSome ∨
          ∃ line ∈ lines, ∃ sz, splitSp line = [k, "blob", sz] := by
  induction lines with
  | nil =>
    intro acc m h k hk
    cases h
    exact Or.inl hk
  | cons line rest ih =>
    intro acc m h k hk
    unfold sizes_fold at h
    cases hstep : size_step acc line with
    | error e => rw [hstep] at h; cases h
    | ok acc2 =>
      rw [hstep] at h
      rcases ih acc2 m h k hk with h1 | ⟨l, hl, sz, hsz⟩
      · rcases size_step_keys acc line acc2 k hstep h1 with h2 | ⟨sz, hsz⟩
        · exact Or.inl h2
        · exact Or.inr ⟨line, List.mem_cons_self line rest, sz, hsz⟩
      · exact Or.inr ⟨l, List.mem_cons_of_mem line hl, sz, hsz⟩

theorem join_sizes_isOk (revs : List (String × String))
    (sizes : List (String × Nat))
    (h : ∀ p ∈ sizes, (lookupH revs p.1).isSome) :
    (join_sizes revs sizes).isOk := by
  induction sizes with
  | nil => simp [join_sizes, Except.isOk, Except.toBool]
  | cons p rest ih =>
    have hp := h p (List.mem_cons_self p rest)
    unfold join_sizes
    cases hlk : lookupH revs p.1 with
    | none => rw [hlk] at hp; simp at hp
    | some path =>
      have hrest := ih (fun q hq => h q (List.mem_cons_of_mem p hq))
      cases hjoin : join_sizes revs rest with
      | error e => rw [hjoin] at hrest; simp [Except.isOk, Except.toBool] at hrest
      | ok tl => simp [Except.isOk, Except.toBool]

theorem decDigitsAux_length (k : Nat) :
    ∀ fuel n, n < 10 ^ k → (decDigitsAux fuel n).length ≤ max k 1 := by
  induction k with
  | zero =>
    intro fuel n hn
    have h0 : n = 0 := by simpa using hn
    subst h0
    cases fuel with
    | zero => simp [decDigitsAux]
    | succ fuel => simp [decDigitsAux]
  | succ k ih =>
    intro fuel n hn
    cases fuel with
    | zero => simp [decDigitsAux]
    | succ fuel =>
      by_cases h10 : n < 10
      · simp [decDigitsAux, h10]
      · simp only [decDigitsAux, if_neg h10, List.length_append,
          List.length_cons, List.length_nil]
        have h1 : n / 10 < 10 ^ k := by
          rw [Nat.div_lt_iff_lt_mul (by norm_num)]
          calc n < 10 ^ (k + 1) := hn
          _ = 10 ^ k * 10 := by ring
        have h2 := ih fuel (n / 10) h1
        have hk1 : 1 ≤ k := by
          by_contra hk
          push_neg at hk
          interval_cases k
          simp at h1
          omega
        omega

theorem decStr_length (k n : Nat) (hk : 1 ≤ k) (hn : n < 10 ^ k) :
    (decStr n).length ≤ k := by
  have h := decDigitsAux_length k (n + 1) n hn
  have h2 : (decStr n).length = (decDigitsAux (n + 1) n).length := rfl
  omega

theorem pad10_length (s : String) (h : s.length ≤ 10) :
    (pad10 s).length = 10 := by
  have hmk : (String.mk (List.replicate (10 - s.length) ' ')).length
      = 10 - s.length := by
    show (List.replicate (10 - s.length) ' ').length = 10 - s.length
    simp
  rw [pad10, String.length_append, hmk]
  omega

theorem scaled1_length (n u : Nat) (hu : 0 < u) (hn : n / u < 10000) :
    (scaled1 n u).length ≤ 6 := by
  have h1 : (decStr (n / u)).length ≤ 4 :=
    decStr_length 4 (n / u) (by omega) (by norm_num; omega)
  have hfrac : n % u * 10 / u < 10 := by
    rw [Nat.div_lt_iff_lt_mul hu]
    have hm : n % u < u := Nat.mod_lt n hu
    nlinarith
  have h2 : (decStr (n % u * 10 / u)).length ≤ 1 :=
    decStr_length 1 _ (Nat.le_refl 1) (by norm_num; omega)
  have hdot : (".".length : Nat) = 1 := rfl
  rw [scaled1, String.length_append, String.length_append, hdot]
  omega

theorem byte_display_length (n : Nat) (h : n < 2 ^ 64) :
    (byte_display n).length ≤ 10 := by
  have e2 : (1024 : Nat) ^ 2 = 1048576 := by norm_num
  have e3 : (1024 : Nat) ^ 3 = 1073741824 := by norm_num
  have e4 : (1024 : Nat) ^ 4 = 1099511627776 := by norm_num
  have e5 : (1024 : Nat) ^ 5 = 1125899906842624 := by norm_num
  have e6 : (1024 : Nat) ^ 6 = 1152921504606846976 := by norm_num
  have e64 : (2 : Nat) ^ 64 = 18446744073709551616 := by norm_num
  rw [e64] at h
  rw [byte_display]
  by_cases h1 : n < 1024
  · rw [if_pos h1]
    have := decStr_length 4 n (by omega) (by norm_num; omega)
    rw [String.length_append]
    have hB : (" B".length : Nat) = 2 := rfl
    omega
  rw [if_neg h1]
  by_cases h2 : n < 1024 ^ 2
  · rw [if_pos h2]
    rw [e2] at h2
    have := scaled1_length n 1024 (by norm_num)
      (by rw [Nat.div_lt_iff_lt_mul (by norm_num)]; omega)
    rw [String.length_append]
    have hU : (" KiB".length : Nat) = 4 := rfl
    omega
  rw [if_neg h2]
  by_cases h3 : n < 1024 ^ 3
  · rw [if_pos h3]
    rw [e3] at h3
    have := scaled1_length n (1024 ^ 2) (by norm_num)
      (by rw [Nat.div_lt_iff_lt_mul (by norm_num), e2]; omega)
    rw [String.length_append]
    have hU : (" MiB".length : Nat) = 4 := rfl
    omega
  rw [if_neg h3]
  by_cases h4 : n < 1024 ^ 4
  · rw [if_pos h4]
    rw [e4] at h4
    have := scaled1_length n (1024 ^ 3) (by norm_num)
      (by rw [Nat.div_lt_iff_lt_mul (by norm_num), e3]; omega)
    rw [String.length_append]
    have hU : (" GiB".length : Nat) = 4 := rfl
    omega
  rw [if_neg h4]
  by_cases h5 : n < 1024 ^ 5
  · rw [if_pos h5]
    rw [e5] at h5
    have := scaled1_length n (1024 ^ 4) (by norm_num)
      (by rw [Nat.div_lt_iff_lt_mul (by norm_num), e4]; omega)
    rw [String.length_append]
    have hU : (" TiB".length : Nat) = 4 := rfl
    omega
  rw [if_neg h5]
  by_cases h6 : n < 1024 ^ 6
  · rw [if_pos h6]
    rw [e6] at h6
    have := scaled1_length n (1024 ^ 5) (by norm_num)
      (by rw [Nat.div_lt_iff_lt_mul (by norm_num), e5]; omega)
    rw [String.length_append]
    have hU : (" PiB".length : Nat) = 4 := rfl
    omega
  rw [if_neg h6]
  have := scaled1_length n (1024 ^ 6) (by norm_num)
    (by rw [Nat.div_lt_iff_lt_mul (by norm_num), e6]; omega)
  rw [String.length_append]
  have hU : (" EiB".length : Nat) = 4 := rfl
  omega

/-- C1 counterexample: the claim says that when two distinct blob identifiers
were ever stored at the same path, only one identifier-to-path entry survives
and only one of the two sizes is counted for that path.  On the code, the
association map is keyed by identifier: both entries survive, and the final
total for `x.txt` is 400 — the SUM of both blob sizes 100 and 300, not either
single one. -/
theorem C1_counterexample :
    revs_map ["aaa x.txt", "bbb x.txt"] = [("aaa", "x.txt"), ("bbb", "x.txt")] ∧
    main_sums ⟨false, some (0, ["aaa x.txt", "bbb x.txt"]),
        some (0, ["aaa blob 100", "bbb blob 300"])⟩ =
      Except.ok [("x.txt", 400)] ∧
    (400 : Nat) ≠ 100 ∧ (400 : Nat) ≠ 300 :=
  ⟨rfl, rfl, by decide, by decide⟩

/-- C1 (amended): the association map keeps one entry per OBJECT IDENTIFIER —
looking up an identifier yields the path of the last rev-list line that
associates that identifier — while two distinct identifiers stored at the
same path both keep their entries, and the per-file aggregation totals a path
as the sum of the sizes of ALL entries mapped to it. -/
theorem C1_amended :
    (∀ lines id, lookupH (revs_map lines) id = assoc_last lines id) ∧
    (∀ fs k, totalOf (aggregate false fs).1 k =
      ((fs.filter (fun p => p.1 == k)).map Prod.snd).sum) :=
  ⟨lookupH_revs_map, aggregate_false_total⟩

/-- C2 counterexample: in directory mode with only the single top-level file
`README`, the code emits NO warning (stderr is empty), the object's size is
aggregated under the empty path, and an entry for it appears in the final
report — contradicting the claim that a warning is emitted and the entry is
excluded.  (Rust `Path::new("README").parent()` is `Some("")`, not `None`.) -/
theorem C2_counterexample :
    main_run ⟨true, some (0, ["abc README"]), some (0, ["abc blob 7"])⟩ =
      Except.ok (["\x7b", "    \"README\": 1,", "\x7d", "7 B       "], []) :=
  rfl

/-- C2 (amended): in directory mode each object's path is collapsed to its
Rust parent; only a path with no Rust parent (the empty path, or the
filesystem root) is skipped with a warning, while a top-level file such as
`README` has parent the empty string, is aggregated under it with no
warning, and appears in the report. -/
theorem C2_amended (p : String) (n : Nat) :
    aggregate true [(p, n)] =
      if p = "" ∨ p = "/" then
        ([], ["File has no parent directory: " ++ p])
      else ([(String.mk (joinSep '/' (split_ch '/' p.data).dropLast), n)], []) := by
  by_cases hp : p = "" ∨ p = "/"
  · simp [aggregate, agg_step, path_parent, hp]
  · simp [aggregate, agg_step, path_parent, hp, addH]

/-- C3 counterexample: the report lines are produced by iterating a Rust
`HashMap`, whose iteration order is unspecified (randomly seeded per
process).  For one fixed repository state whose aggregated map holds two
keys of equal size, two admissible linearizations of that map — permutations
of one another — already yield different report bytes, so byte-identical
reports across runs are not guaranteed. -/
theorem C3_counterexample :
    main_sums ⟨false, some (0, ["i1 a", "i2 b"]),
        some (0, ["i1 blob 5", "i2 blob 5"])⟩ =
      Except.ok [("a", 5), ("b", 5)] ∧
    List.Perm [("a", (5 : Nat)), ("b", 5)] [("b", 5), ("a", 5)] ∧
    print_sizes [("a", 5), ("b", 5)] ≠ print_sizes [("b", 5), ("a", 5)] :=
  ⟨rfl, by decide, by decide⟩

/-- C3 (amended): for a fixed repository state the MULTISET of report lines
is determined — any two hash-map linearizations that are permutations of one
another produce reports that are permutations of one another — and every
report is sorted non-decreasing by size; bytes are only guaranteed identical
up to the relative order of equal-size lines. -/
theorem C3_amended (l l2 : List (String × Nat)) (h : l.Perm l2) :
    (print_sizes l).Perm (print_sizes l2) ∧
    List.Sorted size_le (sorted_pairs l) := by
  constructor
  · have h1 : (sorted_pairs l).Perm (sorted_pairs l2) :=
      ((List.perm_insertionSort size_le l).trans h).trans
        (List.perm_insertionSort size_le l2).symm
    simpa only [print_sizes] using h1.map format_line
  · exact List.sorted_insertionSort size_le l

/-- Witness for C3 (amended) at a concrete permutation pair. -/
theorem C3_amended_witness :
    (print_sizes [("a", 1), ("b", 2)]).Perm
      (print_sizes [("b", 2), ("a", 1)]) ∧
    List.Sorted size_le (sorted_pairs [("a", 1), ("b", 2)]) :=
  C3_amended [("a", 1), ("b", 2)] [("b", 2), ("a", 1)] (by decide)

/-- C4 counterexample: a rev-list output line with no separating space (such
as a bare commit id) does NOT abort the run: it is skipped and processing
continues, returning a success value — contradicting the claim that such a
line is a fatal malformed-output error. -/
theorem C4_counterexample :
    get_revs_for_paths (some (0, ["deadbeef"])) = Except.ok [] ∧
    get_revs_for_paths (some (0, ["deadbeef", "aaa f.txt"])) =
      Except.ok [("aaa", "f.txt")] :=
  ⟨rfl, rfl⟩

/-- C4 (amended): a line of the history-walking collaborator's output that
contains no separating space is silently skipped — it contributes no
association and the run continues successfully. -/
theorem C4_amended (lines : List String) (line : String)
    (h : split_once line = none) :
    revs_map (lines ++ [line]) = revs_map lines ∧
    get_revs_for_paths (some (0, lines ++ [line])) =
      Except.ok (revs_map lines) := by
  have h1 : revs_map (lines ++ [line]) = revs_map lines := by
    unfold revs_map
    rw [List.foldl_append]
    simp [rev_step, h]
  refine ⟨h1, ?_⟩
  show Except.ok (revs_map (lines ++ [line])) = Except.ok (revs_map lines)
  rw [h1]

/-- Witness for C4 (amended) at a concrete spaceless line. -/
theorem C4_amended_witness :
    revs_map (["aaa f.txt"] ++ ["deadbeef"]) = revs_map ["aaa f.txt"] ∧
    get_revs_for_paths (some (0, ["aaa f.txt"] ++ ["deadbeef"])) =
      Except.ok (revs_map ["aaa f.txt"]) :=
  C4_amended ["aaa f.txt"] "deadbeef" rfl

/-- C5 counterexample: malformed size-lookup response lines — wrong field
count, or a two-field `missing` response — are NOT fatal: they are silently
dropped and the run continues, contradicting the claim that any malformed
response line aborts the run. -/
theorem C5_counterexample :
    get_sizes_of_objects (some (0, ["garbage"])) = Except.ok [] ∧
    get_sizes_of_objects (some (0, ["aaa missing"])) = Except.ok [] ∧
    get_sizes_of_objects (some (0, ["a b c d"])) = Except.ok [] ∧
    get_sizes_of_objects (some (0, ["garbage", "bbb blob 7"])) =
      Except.ok [("bbb", 7)] :=
  ⟨rfl, rfl, rfl, rfl⟩

/-- C5 (amended): per response line of the size-lookup subprocess: a
three-field line whose middle field is not the blob tag is dropped without
error; a line whose field count is not three is also dropped without error;
a three-field blob line with a parsable size is recorded; the only fatal
case is a blob line whose size field fails to parse as a u64. -/
theorem C5_amended (m : List (String × Nat)) (line id ty sz : String) :
    (splitSp line = [id, ty, sz] → ty ≠ "blob" →
      size_step m line = Except.ok m) ∧
    (splitSp line = [id, "blob", sz] → parse_u64 sz = none →
      size_step m line = Except.error "Could not convert size to int.") ∧
    (splitSp line = [id, "blob", sz] → ∀ n, parse_u64 sz = some n →
      size_step m line = Except.ok (insertH m id n)) ∧
    ((splitSp line).length ≠ 3 → size_step m line = Except.ok m) := by
  refine ⟨?_, ?_, ?_, ?_⟩
  · intro hs hb
    simp [size_step, hs, hb]
  · intro hs hz
    simp [size_step, hs, hz]
  · intro hs n hn
    simp [size_step, hs, hn]
  · intro hlen
    rcases hs : splitSp line with _ | ⟨a, _ | ⟨b, _ | ⟨c, _ | ⟨d, rest⟩⟩⟩⟩ <;>
      rw [hs] at hlen <;> simp only [size_step, hs] <;>
      first
      | rfl
      | (exfalso; simp at hlen)

/-- Witness for C5 (amended) at concrete response lines. -/
theorem C5_amended_witness :
    size_step [] "aaa tree 5" = Except.ok [] ∧
    size_step [] "bbb blob 5x" =
      Except.error "Could not convert size to int." ∧
    size_step [] "ccc blob 7" = Except.ok [("ccc", 7)] ∧
    size_step [] "junk" = Except.ok [] :=
  ⟨(C5_amended [] "aaa tree 5" "aaa" "tree" "5").1 rfl (by decide),
   (C5_amended [] "bbb blob 5x" "bbb" "x" "5x").2.1 rfl rfl,
   (C5_amended [] "ccc blob 7" "ccc" "x" "7").2.2.1 rfl 7 rfl,
   (C5_amended [] "junk" "x" "y" "z").2.2.2 (by decide)⟩

/-- C6 counterexample: neither collaborator's exit status is checked — with
BOTH subprocesses exiting 1, each parsing function returns success and the
whole run completes successfully with a normal report, contradicting the
claim that a non-zero exit of either is a fatal error terminating the run. -/
theorem C6_counterexample :
    get_revs_for_paths (some (1, ["aaa f.txt"])) =
      Except.ok [("aaa", "f.txt")] ∧
    get_sizes_of_objects (some (1, ["aaa blob 5"])) =
      Except.ok [("aaa", 5)] ∧
    main_run ⟨false, some (1, ["aaa f.txt"]), some (1, ["aaa blob 5"])⟩ =
      Except.ok (["\x7b", "    \"f.txt\": 1,", "\x7d", "5 B       f.txt"], []) :=
  ⟨rfl, rfl, rfl⟩

/-- C6 (amended): only a failure to SPAWN a collaborator is fatal; the run's
result is entirely independent of both subprocess exit statuses (`rev-list`'s
status is read but ignored, `cat-file` is never waited on). -/
theorem C6_amended (c1 c2 : Nat) (dirs : Bool) (L R : List String) :
    main_run ⟨dirs, some (c1, L), some (c2, R)⟩ =
      main_run ⟨dirs, some (0, L), some (0, R)⟩ ∧
    get_revs_for_paths none =
      Except.error "Failed to execute command git rev-list." ∧
    get_sizes_of_objects none =
      Except.error "Failed to execute command git cat-file." :=
  ⟨rfl, rfl, rfl⟩

/-- C7: every report line is the byte display padded to a constant field of
exactly ten characters followed by the key's path; values under 1024 render
as a plain byte count with unit `B`, and the next two power-of-two ranges
use `KiB` and `MiB`. -/
theorem C7_format (p : String) (n : Nat) (h : n < 2 ^ 64) :
    format_line (p, n) = pad10 (byte_display n) ++ p ∧
    (pad10 (byte_display n)).length = 10 ∧
    (n < 1024 → byte_display n = decStr n ++ " B") ∧
    (1024 ≤ n → n < 1024 ^ 2 → byte_display n = scaled1 n 1024 ++ " KiB") ∧
    (1024 ^ 2 ≤ n → n < 1024 ^ 3 →
      byte_display n = scaled1 n (1024 ^ 2) ++ " MiB") := by
  refine ⟨rfl, pad10_length _ (byte_display_length n h), ?_, ?_, ?_⟩
  · intro h1
    rw [byte_display, if_pos h1]
  · intro h1 h2
    rw [byte_display, if_neg (Nat.not_lt.mpr h1), if_pos h2]
  · intro h1 h2
    rw [byte_display, if_neg (Nat.not_lt.mpr (le_trans (by norm_num) h1)),
      if_neg (Nat.not_lt.mpr h1), if_pos h2]

/-- Witness for C7 at the spec's example, size 42 at path `x.txt`: the
rendered line is `42 B      x.txt` with a ten-character size field. -/
theorem C7_format_witness :
    (format_line ("x.txt", 42) = pad10 (byte_display 42) ++ "x.txt" ∧
      (pad10 (byte_display 42)).length = 10 ∧
      ((42 : Nat) < 1024 → byte_display 42 = decStr 42 ++ " B") ∧
      ((1024 : Nat) ≤ 42 → (42 : Nat) < 1024 ^ 2 →
        byte_display 42 = scaled1 42 1024 ++ " KiB") ∧
      ((1024 : Nat) ^ 2 ≤ 42 → (42 : Nat) < 1024 ^ 3 →
        byte_display 42 = scaled1 42 (1024 ^ 2) ++ " MiB")) ∧
    format_line ("x.txt", 42) = "42 B      x.txt" :=
  ⟨C7_format "x.txt" 42 (by norm_num), rfl⟩

/-- C8: the claim that stdout consists solely of the report lines fails —
`main` first prints the pretty `Debug` dump of the `paths_to_count` map, so
even for an empty repository (empty report) stdout contains the line
`\x7b\x7d`. -/
theorem C8_debug_output :
    main_run ⟨false, some (0, []), some (0, [])⟩ =
      Except.ok (["\x7b\x7d"], []) ∧
    print_sizes [] = [] :=
  ⟨rfl, rfl⟩

/-- C10: if every blob response line of the size-lookup subprocess names an
identifier present in the association map (the subprocess answers only what
it was asked), then every key of the size map is a key of the association
map, and the unguarded index `revs_to_paths[id]` (the join) succeeds — it
never panics. -/
theorem C10_no_panic (revLines respLines : List String)
    (hresp : ∀ line ∈ respLines, ∀ id sz : String,
      splitSp line = [id, "blob", sz] →
        (lookupH (revs_map revLines) id).isSome) :
    ∀ m, sizes_run respLines = Except.ok m →
      (∀ p ∈ m, (lookupH (revs_map revLines) p.1).isSome) ∧
      (join_sizes (revs_map revLines) m).isOk := by
  intro m hm
  have hkeys : ∀ p ∈ m, (lookupH (revs_map revLines) p.1).isSome := by
    intro p hp
    have hks := sizes_fold_keys respLines [] m hm p.1
      (lookupH_isSome_mem m p hp)
    rcases hks with h1 | ⟨line, hline, sz, hsz⟩
    · simp [lookupH] at h1
    · exact hresp line hline p.1 sz hsz
  exact ⟨hkeys, join_sizes_isOk _ m hkeys⟩

/-- Witness for C10 at a concrete run. -/
theorem C10_no_panic_witness :
    (∀ p ∈ [("aaa", (5 : Nat))],
      (lookupH (revs_map ["aaa f.txt"]) p.1).isSome) ∧
    (join_sizes (revs_map ["aaa f.txt"]) [("aaa", 5)]).isOk :=
  C10_no_panic ["aaa f.txt"] ["aaa blob 5"]
    (by
      intro line hline id sz hsp
      simp only [List.mem_singleton] at hline
      subst hline
      have he : splitSp "aaa blob 5" = ["aaa", "blob", "5"] := rfl
      rw [he] at hsp
      have hid : id = "aaa" := by
        have := hsp
        simp at this
        exact this.1.symm
      subst hid
      decide)
    [("aaa", 5)] rfl

end GitFatfiles
